import Mathlib

/-!
Verification of the NTC data-processing and calibration core
(`data_processor.py`, `ntc_calibration.py`).

Floating-point sample values are modelled exactly: a sample is `Option ℚ`,
where `none` stands for the IEEE NaN sentinel ("no valid reading") and
`some q` for an ordinary finite value.  NaN propagates through arithmetic
and makes every ordered comparison false, exactly as in numpy.  Standard
deviations and logarithms, which the source computes with `np.sqrt` /
`np.log`, are modelled with `Real.sqrt` / `Real.log` over `ℝ`.
-/

set_option maxHeartbeats 1000000

/-- A single sample: `none` models the NaN sentinel. -/
abbrev Samp := Option ℚ

/-- NaN-propagating subtraction (numpy elementwise `-`). -/
def fsub : Samp → Samp → Samp
  | some a, some b => some (a - b)
  | _, _ => none

/-- NaN-propagating division (numpy elementwise `/`).  Every division in the
modelled code paths has its zero divisors pre-screened (`np.where(dt == 0,
np.nan, dt)`), so the zero-divisor case, mapped to NaN here, is never
reached with a nonzero numerator. -/
def fdiv : Samp → Samp → Samp
  | some a, some b => if b = 0 then none else some (a / b)
  | _, _ => none

/-- Number of non-NaN entries: `np.sum(~np.isnan(data))`. -/
def validCount (l : List Samp) : Nat := l.countP (fun x => x.isSome)

/-- The non-NaN entries in order: `data[~np.isnan(data)]`. -/
def validList (l : List Samp) : List ℚ := l.filterMap id

/-- `np.nanmean`: mean of the non-NaN entries, NaN when there are none. -/
def nanmeanQ (l : List Samp) : Option ℚ :=
  let v := validList l
  if v.length = 0 then none else some (v.sum / v.length)

/-- The (population) variance of the non-NaN entries, NaN when there are
none.  `np.nanstd data = Real.sqrt (nanvarQ data)`. -/
def nanvarQ (l : List Samp) : Option ℚ :=
  let v := validList l
  if v.length = 0 then none else
    some (((v.map (fun x => (x - v.sum / v.length) ^ 2)).sum) / v.length)

/-- `np.nanstd`: population standard deviation ignoring NaN; NaN when
there is no valid entry. -/
noncomputable def nanstdR (l : List Samp) : Option ℝ :=
  (nanvarQ l).map (fun v => Real.sqrt (v : ℝ))

/-- `np.convolve(a, np.ones(w)/w, mode='same')` for a kernel of width `w`:
entry `i` of the result is the sum of `a[i + (w-1)/2 - w + 1 .. i + (w-1)/2]`
(clamped to the array) divided by `w`.  Only called with `1 ≤ w ≤ a.length`
by `movingAverageFilter`. -/
def convSameUniform (a : List ℚ) (w : Nat) : List ℚ :=
  (List.range a.length).map (fun i =>
    (((a.take (i + (w - 1) / 2 + 1)).drop (i + (w - 1) / 2 + 1 - w)).sum) / w)

/-- `filtered[valid_mask] = filtered_valid`: write the values `vs` back into
the non-NaN positions of `l`, NaN everywhere else (the backdrop is
`np.full_like(data, np.nan)`). -/
def scatterValid : List Samp → List ℚ → List Samp
  | [], _ => []
  | none :: rest, vs => none :: scatterValid rest vs
  | some _ :: rest, [] => none :: scatterValid rest []
  | some _ :: rest, v :: vs => some v :: scatterValid rest vs

/-- `NTCDataProcessor.moving_average_filter(data, window)`: if there is no
valid sample the input is returned as is; otherwise the non-NaN entries are
convolved with a uniform kernel when there are at least `window` of them and
scattered back, and an all-NaN backdrop is returned when there are fewer. -/
def movingAverageFilter (data : List Samp) (window : Nat) : List Samp :=
  if validCount data = 0 then data
  else
    let valid := validList data
    if window ≤ valid.length then
      scatterValid data (convSameUniform valid window)
    else
      data.map (fun _ => none)

/-- The z-score outlier condition for one sample `x` given the NaN-aware
mean `m` and standard deviation `s` of the whole sequence:
`np.abs((x - m) / s) > t`.  Any NaN among `x`, `m`, `s` makes the comparison
false.  When `s = 0`, IEEE division yields `±inf` for a nonzero numerator
and NaN for a zero one, so the comparison holds exactly when `x ≠ m`
(the threshold `t` is an ordinary finite float). -/
def zscoreFlag (t : ℚ) (m : Option ℚ) (s : Option ℝ) (x : Samp) : Prop :=
  match x, m, s with
  | some xv, some mv, some sv =>
      (sv = 0 ∧ xv ≠ mv) ∨ (sv ≠ 0 ∧ |((xv : ℝ) - mv)| / sv > (t : ℝ))
  | _, _, _ => False

open Classical in
/-- Boolean form of `zscoreFlag` (one entry of the numpy boolean mask). -/
noncomputable def zscoreFlagB (t : ℚ) (m : Option ℚ) (s : Option ℝ) (x : Samp) : Bool :=
  decide (zscoreFlag t m s x)

/-- `np.nanpercentile(data, q)` with linear interpolation, over the sorted
non-NaN entries; NaN when there is none. -/
def percentileQ (l : List Samp) (q : ℚ) : Option ℚ :=
  let v := (validList l).foldr (fun x acc => acc.orderedInsert (· ≤ ·) x) []
  match v with
  | [] => none
  | _ :: _ =>
    let n := v.length
    let r := ((n : ℚ) - 1) * q / 100
    let i := (⌊r⌋).toNat
    let lo := v.getD i 0
    let hi := v.getD (min (i + 1) (n - 1)) 0
    some (lo + (r - i) * (hi - lo))

/-- The IQR outlier condition for one sample `x`:
`(x < q1 - 1.5*iqr) | (x > q3 + 1.5*iqr)`; false at NaN. -/
def iqrFlagB (lo hi : Option ℚ) (x : Samp) : Bool :=
  match x, lo, hi with
  | some xv, some l, some h => decide (xv < l) || decide (h < xv)
  | _, _, _ => false

/-- `cleaned_data[outlier_mask] = np.nan` applied to a copy of the input. -/
def applyMask (data : List Samp) (mask : List Bool) : List Samp :=
  List.zipWith (fun x b => if b then none else x) data mask

/-- `NTCDataProcessor.remove_outliers(data, method)` with the configured
threshold `t` (`self.outlier_threshold`): returns `(cleaned, mask)`. -/
noncomputable def removeOutliers (t : ℚ) (data : List Samp) (method : String) :
    List Samp × List Bool :=
  let mask :=
    if method = "zscore" then
      data.map (zscoreFlagB t (nanmeanQ data) (nanstdR data))
    else if method = "iqr" then
      let q1 := percentileQ data 25
      let q3 := percentileQ data 75
      let iqr := Option.bind q3 (fun b => q1.map (fun a => b - a))
      let lower := Option.bind q1 (fun a => iqr.map (fun d => a - 3/2 * d))
      let upper := Option.bind q3 (fun b => iqr.map (fun d => b + 3/2 * d))
      data.map (iqrFlagB lower upper)
    else
      data.map (fun _ => false)
  (applyMask data mask, mask)

/-- `np.mean` of a plain (NaN-free) value list; only used on nonempty lists. -/
def meanQ (l : List ℚ) : ℚ := l.sum / l.length

/-- Population variance of a plain value list (`np.std l = Real.sqrt (varQ l)`). -/
def varQ (l : List ℚ) : ℚ := (l.map (fun x => (x - meanQ l) ^ 2)).sum / l.length

/-- `np.std` (population) of a plain value list. -/
noncomputable def stdR (l : List ℚ) : ℝ := Real.sqrt ((varQ l : ℝ))

/-- The statistics dictionary built by `calculate_statistics`. -/
structure NTCStats where
  mean : ℚ
  std : ℝ
  min : ℚ
  max : ℚ
  range : ℚ
  median : ℚ
  q25 : ℚ
  q75 : ℚ
  iqr : ℚ
  samples : Nat
  validFrac : ℚ

/-- `NTCDataProcessor.calculate_statistics(data)`: summary over the non-NaN
entries, or the empty dictionary (`none`) when there are no valid samples. -/
noncomputable def calculateStatistics (data : List Samp) : Option NTCStats :=
  match validList data with
  | [] => none
  | x :: xs =>
    let v := x :: xs
    let mn := xs.foldl min x
    let mx := xs.foldl max x
    let q25 := (percentileQ data 25).getD 0
    let q75 := (percentileQ data 75).getD 0
    some { mean := meanQ v, std := stdR v, min := mn, max := mx,
           range := mx - mn, median := (percentileQ data 50).getD 0,
           q25 := q25, q75 := q75, iqr := q75 - q25,
           samples := v.length, validFrac := (v.length : ℚ) / data.length }

/-- Successive differences `np.diff` over a plain float list. -/
def diffQ (l : List ℚ) : List ℚ := List.zipWith (fun a b => a - b) l.tail l

/-- Successive differences `np.diff` over a NaN-capable sample list. -/
def diffS (l : List Samp) : List Samp := List.zipWith fsub l.tail l

/-- `np.where(dt == 0, np.nan, dt)`: map zero time deltas to NaN. -/
def whereNZ (l : List ℚ) : List Samp := l.map (fun d => if d = 0 then none else some d)

/-- Python exceptions that can escape the pipeline: an out-of-bounds
`timestamps[steady_idx]` and a numpy broadcasting failure. -/
inductive PyErr where
  | indexErr : PyErr
  | broadcastErr : PyErr
deriving DecidableEq, Repr

/-- Elementwise numpy division of two one-dimensional arrays, with numpy's
shape rules: equal lengths divide pointwise and a length-1 operand
broadcasts; any other shape combination raises. -/
def broadcastDiv (a b : List Samp) : Except PyErr (List Samp) :=
  if a.length = b.length then .ok (List.zipWith fdiv a b)
  else if b.length = 1 then .ok (a.map (fun x => fdiv x (b.getD 0 none)))
  else if a.length = 1 then .ok (b.map (fun y => fdiv (a.getD 0 none) y))
  else .error .broadcastErr

/-- `NTCDataProcessor.calculate_derivative(data, timestamps)`:
`np.diff(data) / np.where(np.diff(timestamps) == 0, np.nan, np.diff(timestamps))`,
or an empty sequence when the data has fewer than 2 entries. -/
def calculateDerivative (data : List Samp) (timestamps : List ℚ) :
    Except PyErr (List Samp) :=
  if data.length < 2 then .ok []
  else broadcastDiv (diffS data) (whereNZ (diffQ timestamps))

/-- The window criterion of `detect_steady_state`:
`np.nanstd(data[i-window:i]) < threshold` (false when the window is all
NaN, since every comparison with NaN is false). -/
def stdLt (l : List Samp) (t : ℚ) : Prop :=
  match nanstdR l with
  | some s => s < (t : ℝ)
  | none => False

open Classical in
/-- Boolean form of `stdLt`. -/
noncomputable def stdLtB (l : List Samp) (t : ℚ) : Bool := decide (stdLt l t)

/-- `NTCDataProcessor.detect_steady_state(data, window, threshold)`: first
`i` in `range(window, len(data))` whose preceding window has standard
deviation strictly below the threshold, as `(i, True)`; `(-1, False)` when
no window qualifies or the data is shorter than the window. -/
noncomputable def detectSteadyState (data : List Samp) (window : Nat) (threshold : ℚ) :
    ℤ × Bool :=
  if data.length < window then (-1, false)
  else
    match (List.range' window (data.length - window)).find?
        (fun i => stdLtB ((data.drop (i - window)).take window) threshold) with
    | some i => ((i : ℤ), true)
    | none => (-1, false)

/-- `np.nanmax(np.abs(l))`: NaN (`none`) when no entry is valid; the caller
guards against the empty list. -/
def nanmaxAbs (l : List Samp) : Samp :=
  match (validList l).map (fun x => |x|) with
  | [] => none
  | x :: xs => some (xs.foldl max x)

/-- The constructor configuration of `NTCDataProcessor.__init__`. -/
structure ProcConfig where
  filterEnabled : Bool
  filterType : String
  filterWindow : Nat
  outlierThreshold : ℚ

/-- The default construction `NTCDataProcessor()`. -/
def defaultConfig : ProcConfig :=
  { filterEnabled := true, filterType := "moving_average",
    filterWindow := 5, outlierThreshold := 3 }

/-- `NTCDataProcessor.apply_filter`: identity when disabled; dispatch on the
configured kind.  The `median` and `butterworth` branches call external
scipy routines and are outside the modelled core; every claim is settled at
the default `moving_average` configuration, and the remaining branches fall
through to the unknown-kind identity. -/
def applyFilter (cfg : ProcConfig) (data : List Samp) : List Samp :=
  if cfg.filterEnabled = false then data
  else if cfg.filterType = "moving_average" then
    movingAverageFilter data cfg.filterWindow
  else data

/-- The `steady_state` sub-dictionary of the orchestrator result. -/
structure SteadyInfo where
  index : ℤ
  isSteady : Bool
  timeToSteady : Option ℚ
deriving DecidableEq, Repr

/-- The dictionary returned by `process_channel_data`.  `none` in an
optional field models a key that is absent (timestamp-dependent stages
skipped); `maxRate = some none` models a stored float NaN. -/
structure ProcResult where
  raw : List Samp
  cleaned : List Samp
  filtered : List Samp
  outlierCount : Nat
  statistics : Option NTCStats
  steadyState : Option SteadyInfo
  derivative : Option (List Samp)
  maxRate : Option Samp

/-- The steady-state stage of `process_channel_data`: runs only when
timestamps are supplied and the filtered length exceeds 50;
`timestamps[steady_idx]` is looked up only for a non-negative index and
raises `IndexError` when out of bounds. -/
noncomputable def steadyStage (filtered : List Samp) :
    Option (List ℚ) → Except PyErr (Option SteadyInfo)
  | some ts =>
    if 50 < filtered.length then
      let sd := detectSteadyState filtered 50 (1/10)
      if 0 ≤ sd.1 then
        if h : sd.1.toNat < ts.length then
          pure (some { index := sd.1, isSteady := sd.2,
                       timeToSteady := some (ts.get ⟨sd.1.toNat, h⟩) })
        else throw .indexErr
      else
        pure (some { index := sd.1, isSteady := sd.2, timeToSteady := none })
    else pure none
  | none => pure none

/-- The derivative stage of `process_channel_data`: runs only when
timestamps are supplied and the filtered length exceeds 1; stores the
derivative and `np.nanmax(np.abs(...))` of it (the empty-derivative guard
of the source). -/
noncomputable def derivStage (filtered : List Samp) :
    Option (List ℚ) → Except PyErr (Option (List Samp) × Option Samp)
  | some ts =>
    if 1 < filtered.length then do
      let d ← calculateDerivative filtered ts
      pure (some d, if d.length = 0 then none else some (nanmaxAbs d))
    else pure (none, none)
  | none => pure (none, none)

/-- `NTCDataProcessor.process_channel_data(data, timestamps)`: outlier
removal (z-score at the configured threshold), filtering, statistics, then
the two timestamp-dependent stages. -/
noncomputable def processChannelData (cfg : ProcConfig) (data : List Samp)
    (timestamps : Option (List ℚ)) : Except PyErr ProcResult := do
  let ro := removeOutliers cfg.outlierThreshold data "zscore"
  let filtered := applyFilter cfg ro.1
  let stats := calculateStatistics filtered
  let steady ← steadyStage filtered timestamps
  let derivMax ← derivStage filtered timestamps
  pure { raw := data, cleaned := ro.1, filtered := filtered,
         outlierCount := ro.2.countP (fun b => b), statistics := stats,
         steadyState := steady, derivative := derivMax.1, maxRate := derivMax.2 }

/-- Indices valid in both sequences: `data1[valid_mask], data2[valid_mask]`
as a list of pairs (`valid_mask = ~(isnan(data1) | isnan(data2))`). -/
def jointPairs (d1 d2 : List Samp) : List (ℚ × ℚ) :=
  (d1.zip d2).filterMap (fun p =>
    match p with
    | (some a, some b) => some (a, b)
    | _ => none)

/-- `np.sum(valid_mask)` for the joint mask of two channels. -/
def jointCount (d1 d2 : List Samp) : Nat :=
  (d1.zip d2).countP (fun p => p.1.isSome && p.2.isSome)

/-- `np.corrcoef(v1, v2)[0, 1]`: the Pearson correlation coefficient of the
jointly valid pairs (the sample-covariance normalisations cancel). -/
noncomputable def pearson (ps : List (ℚ × ℚ)) : ℝ :=
  let xs := ps.map Prod.fst
  let ys := ps.map Prod.snd
  let crossSum : ℚ := (ps.map (fun p => (p.1 - meanQ xs) * (p.2 - meanQ ys))).sum
  let sqSumX : ℚ := (xs.map (fun x => (x - meanQ xs) ^ 2)).sum
  let sqSumY : ℚ := (ys.map (fun y => (y - meanQ ys) ^ 2)).sum
  ((crossSum : ℝ)) / (Real.sqrt ((sqSumX : ℝ)) * Real.sqrt ((sqSumY : ℝ)))

/-- The key `f"{ch1}_vs_{ch2}"`. -/
def vsKey (n1 n2 : String) : String := n1 ++ "_vs_" ++ n2

/-- The nested pair loop of `compare_channels`: for each channel, pair it
with every later channel; a pair contributes a correlation, mean-difference
and std-difference entry exactly when it has more than 10 jointly valid
samples.  Returns the three association lists in emission order. -/
noncomputable def crossLoop :
    List (String × List Samp) →
    List (String × ℝ) × List (String × ℚ) × List (String × ℝ)
  | [] => ([], [], [])
  | (n1, d1) :: rest =>
    let corr1 := rest.filterMap (fun c =>
      if 10 < jointCount d1 c.2 then
        some (vsKey n1 c.1, pearson (jointPairs d1 c.2)) else none)
    let mean1 := rest.filterMap (fun c =>
      if 10 < jointCount d1 c.2 then
        some (vsKey n1 c.1,
          meanQ ((jointPairs d1 c.2).map Prod.fst) -
          meanQ ((jointPairs d1 c.2).map Prod.snd)) else none)
    let std1 := rest.filterMap (fun c =>
      if 10 < jointCount d1 c.2 then
        some (vsKey n1 c.1,
          stdR ((jointPairs d1 c.2).map Prod.fst) -
          stdR ((jointPairs d1 c.2).map Prod.snd)) else none)
    let r := crossLoop rest
    (corr1 ++ r.1, mean1 ++ r.2.1, std1 ++ r.2.2)

/-- The dictionary returned by `compare_channels`. -/
structure ChannelComparison where
  channelStats : List (String × Option NTCStats)
  crossCorrelation : List (String × ℝ)
  meanDifference : List (String × ℚ)
  stdDifference : List (String × ℝ)

/-- `NTCDataProcessor.compare_channels(channel_data)` over the channels in
enumeration order. -/
noncomputable def compareChannels (chs : List (String × List Samp)) : ChannelComparison :=
  let r := crossLoop chs
  { channelStats := chs.map (fun c => (c.1, calculateStatistics c.2)),
    crossCorrelation := r.1, meanDifference := r.2.1, stdDifference := r.2.2 }

/-- All ordered pairs `(chs[i], chs[j])` with `i < j`, in the enumeration
order of the two nested loops of `compare_channels`. -/
def orderedPairs {α : Type} : List α → List (α × α)
  | [] => []
  | x :: xs => (xs.map (fun y => (x, y))) ++ orderedPairs xs

/-- `NTCCalibration.beta_equation(resistance, r0, t0, beta)`:
`1/T = 1/T0 + (1/beta) * ln(R/R0)` in kelvin, with the resistance and the
ratio floor-clamped at `0.001`, converted back to Celsius. -/
noncomputable def betaEquation (resistance r0 t0 beta : ℝ) : ℝ :=
  let t0Kelvin := t0 + 273.15
  let res := max resistance 0.001
  let ratio := max (res / r0) 0.001
  let invT := 1 / t0Kelvin + (1 / beta) * Real.log ratio
  1 / invT - 273.15

/-- `NTCCalibration.calculate_beta_from_points(t1, r1, t2, r2)`:
`beta = ln(r2/r1) / (1/T1 - 1/T2)` in kelvin. -/
noncomputable def calculateBetaFromPoints (t1 r1 t2 r2 : ℝ) : ℝ :=
  Real.log (r2 / r1) / (1 / (t1 + 273.15) - 1 / (t2 + 273.15))

/-- The two `ValueError`s raised by
`calculate_steinhart_hart_coefficients`. -/
inductive CalibErr where
  | insufficientPoints : CalibErr
  | shapeMismatch : CalibErr
deriving DecidableEq, Repr

/-- The design matrix of the Steinhart-Hart fit: row `i` is
`[1, ln(R_i), ln(R_i)^3]`.  `n` is the number of calibration points; the
`getD` default is never reached for `i < resistances.length`. -/
noncomputable def shDesign (resistances : List ℝ) (n : Nat) : Matrix (Fin n) (Fin 3) ℝ :=
  Matrix.of (fun i j =>
    let lr := Real.log (resistances.getD (i : Nat) 0)
    match (j : Fin 3) with
    | 0 => 1
    | 1 => lr
    | 2 => lr ^ 3)

/-- The right-hand side of the fit: `y_i = 1 / (T_i + 273.15)`. -/
noncomputable def shTarget (temperatures : List ℝ) (n : Nat) : Fin n → ℝ :=
  fun i => 1 / (temperatures.getD (i : Nat) 0 + 273.15)

/-- `np.linalg.lstsq(x, y)` for the full-column-rank case, via the normal
equations: the least-squares coefficients are `(XᵀX)⁻¹ Xᵀ y` (Mathlib's
matrix inverse is zero when `XᵀX` is singular; numpy's minimum-norm
rank-deficient answer is outside the modelled scope). -/
noncomputable def lstsqNormal (resistances : List ℝ) (n : Nat)
    (y : Fin n → ℝ) : Fin 3 → ℝ :=
  let x := shDesign resistances n
  ((x.transpose * x)⁻¹).mulVec (x.transpose.mulVec y)

/-- `NTCCalibration.calculate_steinhart_hart_coefficients(temperatures,
resistances)`: the two up-front validations, then the kelvin conversion,
design matrix and least-squares solve. -/
noncomputable def calculateSteinhartHartCoefficients
    (temperatures resistances : List ℝ) : Except CalibErr (ℝ × ℝ × ℝ) :=
  if temperatures.length < 3 then .error .insufficientPoints
  else if temperatures.length ≠ resistances.length then .error .shapeMismatch
  else
    let n := temperatures.length
    let coeffs := lstsqNormal resistances n (shTarget temperatures n)
    .ok (coeffs 0, coeffs 1, coeffs 2)

/-- The squared residual `‖X c - y‖²` of candidate coefficients `c` for the
Steinhart-Hart fit: what `np.linalg.lstsq` minimises. -/
noncomputable def shResidual (resistances : List ℝ) (n : Nat)
    (y : Fin n → ℝ) (c : Fin 3 → ℝ) : ℝ :=
  ∑ i, ((shDesign resistances n).mulVec c i - y i) ^ 2

/-! ## Helper lemmas -/

theorem validList_length (l : List Samp) : (validList l).length = validCount l := by
  induction l with
  | nil => rfl
  | cons x xs ih =>
    cases x <;> simp [validList, validCount, List.countP_cons] at ih ⊢ <;>
      simpa [validList, validCount] using ih

theorem applyMask_countP_isNone (f : Samp → Bool) (hf : f none = false) (l : List Samp) :
    (applyMask l (l.map f)).countP (fun x => x.isNone) =
      l.countP (fun x => x.isNone) + (l.map f).countP (fun b => b) := by
  induction l with
  | nil => rfl
  | cons x xs ih =>
    have step : applyMask (x :: xs) ((x :: xs).map f) =
        (if f x then none else x) :: applyMask xs (xs.map f) := rfl
    rw [step]
    cases x with
    | none =>
      rw [hf]
      simp only [if_neg Bool.false_ne_true, List.map_cons, List.countP_cons, hf, ih]
      simp
      try omega
    | some v =>
      by_cases hfx : f (some v) = true
      · simp only [hfx, if_pos, List.map_cons, List.countP_cons, ih]
        simp [hfx]
        try omega
      · rw [if_neg hfx]
        simp only [List.map_cons, List.countP_cons, ih]
        simp [hfx]
        try omega

theorem zscoreFlag_none (t : ℚ) (m : Option ℚ) (s : Option ℝ) :
    ¬ zscoreFlag t m s none := by
  cases m <;> cases s <;> simp [zscoreFlag]

theorem zscoreFlagB_none (t : ℚ) (m : Option ℚ) (s : Option ℝ) :
    zscoreFlagB t m s none = false := by
  simp [zscoreFlagB, zscoreFlag_none]

theorem iqrFlagB_none (lo hi : Option ℚ) : iqrFlagB lo hi none = false := by
  cases lo <;> cases hi <;> rfl

theorem validList_of_const (c : ℚ) (data : List Samp)
    (h : ∀ x ∈ data, x = none ∨ x = some c) :
    validList data = List.replicate (validCount data) c := by
  induction data with
  | nil => rfl
  | cons x xs ih =>
    have hx := h x (by simp)
    have ht : ∀ y ∈ xs, y = none ∨ y = some c := fun y hy => h y (by simp [hy])
    have ih2 : List.filterMap id xs = List.replicate (List.countP (fun x => x.isSome) xs) c := by
      simpa [validList, validCount] using ih ht
    rcases hx with hx | hx <;>
      simp [hx, validList, validCount, List.countP_cons, List.replicate_succ, ih2]

theorem nanmeanQ_const (data : List Samp) (c : ℚ) (n : Nat)
    (h : validList data = List.replicate n c) (hn : n ≠ 0) :
    nanmeanQ data = some c := by
  have hq : (n : ℚ) ≠ 0 := Nat.cast_ne_zero.mpr hn
  simp [nanmeanQ, h, List.sum_replicate, smul_eq_mul, hn,
    mul_div_cancel_left₀ _ hq]

theorem nanvarQ_const (data : List Samp) (c : ℚ) (n : Nat)
    (h : validList data = List.replicate n c) (hn : n ≠ 0) :
    nanvarQ data = some 0 := by
  have hq : (n : ℚ) ≠ 0 := Nat.cast_ne_zero.mpr hn
  simp [nanvarQ, h, List.sum_replicate, smul_eq_mul, hn, List.map_replicate,
    mul_div_cancel_left₀ _ hq]

/-! ## Claim C1 -/

/-- Claim C1, counterexample: with two valid samples and window 5 (valid
count strictly between zero and the window) the moving-average filter does
not return its input unchanged; it returns an all-NaN sequence. -/
theorem moving_average_cex :
    movingAverageFilter [some 1, some 2] 5 = [none, none] ∧
    movingAverageFilter [some 1, some 2] 5 ≠ [some 1, some 2] := by decide

/-- Claim C1 (amended): an all-NaN input is returned unchanged, but a
sequence with `0 < valid count < window` is mapped to an all-NaN sequence
of the same length — the valid entries are erased, not passed through. -/
theorem moving_average_filter_degenerate (data : List Samp) (w : Nat) :
    (validCount data = 0 → movingAverageFilter data w = data) ∧
    (0 < validCount data → validCount data < w →
      movingAverageFilter data w = data.map (fun _ => none)) := by
  constructor
  · intro h
    simp [movingAverageFilter, h]
  · intro h1 h2
    have hv := validList_length data
    rw [movingAverageFilter, if_neg (by omega), if_neg (by omega)]

/-- Claim C1, witness for `moving_average_filter_degenerate`. -/
theorem moving_average_filter_degenerate_witness :
    movingAverageFilter [none, none] 5 = [none, none] ∧
    movingAverageFilter [some 1, some 2] 5 = [none, none] := by
  constructor
  · exact (moving_average_filter_degenerate [none, none] 5).1 (by decide)
  · simpa using
      (moving_average_filter_degenerate [some 1, some 2] 5).2 (by decide) (by decide)

/-! ## Claim C4 -/

/-- Claim C4: for every input, method and threshold, the number of `true`
entries of the outlier mask equals the number of NaN entries of the cleaned
sequence minus the number of NaN entries of the input (stated additively to
avoid truncated subtraction).  The input itself is untouched — the model is
a pure function of it, matching `data.copy()` in the source. -/
theorem remove_outliers_mask_count (t : ℚ) (data : List Samp) (method : String) :
    ((removeOutliers t data method).1.countP (fun x => x.isNone)) =
      data.countP (fun x => x.isNone) +
        ((removeOutliers t data method).2.countP (fun b => b)) := by
  by_cases hz : method = "zscore"
  · simp only [removeOutliers, hz, if_pos]
    exact applyMask_countP_isNone _ (zscoreFlagB_none _ _ _) data
  · by_cases hi : method = "iqr"
    · simp only [removeOutliers, hz, hi, if_true, if_false]
      exact applyMask_countP_isNone _ (iqrFlagB_none _ _) data
    · simp only [removeOutliers, hz, hi, if_false]
      exact applyMask_countP_isNone _ rfl data

/-! ## Claim C5 -/

/-- Claim C5: z-score outlier detection over a sequence whose valid entries
are all equal (in particular a constant or an all-NaN series, where the
standard deviation is zero or NaN) flags nothing: the mask is all-false,
despite the division by the zero/undefined standard deviation. -/
theorem zscore_constant_mask_false (t : ℚ) (data : List Samp) (c : ℚ)
    (h : ∀ x ∈ data, x = none ∨ x = some c) :
    (removeOutliers t data "zscore").2 = data.map (fun _ => false) := by
  have hrep := validList_of_const c data h
  simp only [removeOutliers, if_pos]
  apply List.map_congr_left
  intro x hx
  rcases h x hx with rfl | rfl
  · exact zscoreFlagB_none _ _ _
  · by_cases hn : validCount data = 0
    · have : validList data = [] := by simp [hrep, hn]
      simp [zscoreFlagB, nanmeanQ, this, zscoreFlag]
    · rw [nanmeanQ_const data c _ hrep hn]
      have hv := nanvarQ_const data c _ hrep hn
      simp [zscoreFlagB, nanstdR, hv, zscoreFlag, Real.sqrt_zero]

/-- Claim C5, witness for `zscore_constant_mask_false`. -/
theorem zscore_constant_mask_false_witness :
    (removeOutliers 3 [some 2, some 2] "zscore").2 = [false, false] := by
  simpa using zscore_constant_mask_false 3 [some 2, some 2] 2 (by decide)

theorem find?_range'_eq_some (p : Nat → Bool) :
    ∀ (n s i : Nat), (List.range' s n).find? p = some i →
      s ≤ i ∧ i < s + n ∧ p i = true ∧ ∀ j, s ≤ j → j < i → p j = false := by
  intro n
  induction n with
  | zero => intro s i h; simp at h
  | succ m ih =>
    intro s i h
    rw [List.range'_succ] at h
    by_cases hp : p s
    · rw [List.find?_cons_of_pos _ hp] at h
      obtain rfl : s = i := by simpa using h
      exact ⟨le_refl s, by omega, hp, fun j h1 h2 => absurd (lt_of_le_of_lt h1 h2) (lt_irrefl s)⟩
    · rw [List.find?_cons_of_neg _ (by simpa using hp)] at h
      obtain ⟨h1, h2, h3, h4⟩ := ih (s + 1) i h
      refine ⟨by omega, by omega, h3, fun j hj1 hj2 => ?_⟩
      rcases Nat.eq_or_lt_of_le hj1 with rfl | hlt
      · exact Bool.not_eq_true _ ▸ (by simpa using hp)
      · exact h4 j hlt hj2

theorem validList_replicate_some (k : Nat) (c : ℚ) :
    validList (List.replicate k (some c)) = List.replicate k c := by
  induction k with
  | zero => rfl
  | succ m ih =>
    simp only [List.replicate_succ, validList, List.filterMap_cons] at ih ⊢
    simp [ih]

/-- Either no steady window is found, or the returned index is the first
index at or past the window whose preceding window is below threshold. -/
theorem detectSteadyState_cases (data : List Samp) (w : Nat) (t : ℚ) :
    detectSteadyState data w t = (-1, false) ∨
    ∃ i : ℕ, detectSteadyState data w t = ((i : ℤ), true) ∧
      w ≤ i ∧ i < data.length ∧ stdLt ((data.drop (i - w)).take w) t ∧
      ∀ j, w ≤ j → j < i → ¬ stdLt ((data.drop (j - w)).take w) t := by
  by_cases hlen : data.length < w
  · left; simp [detectSteadyState, hlen]
  · rw [detectSteadyState, if_neg hlen]
    cases hf : (List.range' w (data.length - w)).find?
        (fun i => stdLtB ((data.drop (i - w)).take w) t) with
    | none => left; rfl
    | some i =>
      right
      obtain ⟨h1, h2, h3, h4⟩ := find?_range'_eq_some _ _ _ _ hf
      refine ⟨i, rfl, h1, by omega, ?_, fun j hj1 hj2 => ?_⟩
      · simpa [stdLtB] using h3
      · simpa [stdLtB] using h4 j hj1 hj2

/-- A strictly constant sequence longer than the window is steady at the
first full-window index. -/
theorem detectSteadyState_replicate (c : ℚ) (n w : Nat) (t : ℚ)
    (hw : 0 < w) (hn : w < n) (ht : 0 < t) :
    detectSteadyState (List.replicate n (some c)) w t = ((w : ℤ), true) := by
  have hlen : (List.replicate n (some c)).length = n := List.length_replicate n _
  have hvar : nanvarQ (List.replicate w (some c)) = some 0 :=
    nanvarQ_const _ c w (validList_replicate_some w c) (by omega)
  have hstd : nanstdR (List.replicate w (some c)) = some 0 := by
    rw [nanstdR, hvar]
    simp [Real.sqrt_zero]
  have hp : stdLt (List.replicate w (some c)) t := by
    simp only [stdLt, hstd]
    exact_mod_cast ht
  have hcond : stdLtB (((List.replicate n (some c)).drop (w - w)).take w) t = true := by
    have hslice : ((List.replicate n (some c)).drop (w - w)).take w =
        List.replicate w (some c) := by
      simp [List.take_replicate, Nat.min_eq_left (le_of_lt hn)]
    rw [hslice, stdLtB]
    simp only [decide_eq_true_eq]
    exact hp
  rw [detectSteadyState, if_neg (by omega)]
  obtain ⟨k, hk⟩ : ∃ k, n - w = k + 1 := ⟨n - w - 1, by omega⟩
  have hr : List.range' w ((List.replicate n (some c)).length - w) =
      w :: List.range' (w + 1) k := by
    rw [hlen, hk, List.range'_succ]
  rw [hr, List.find?_cons]
  rw [hcond]

/-! ## Claim C2 -/

/-- Claim C2, counterexample: a strictly constant sequence of length
exactly equal to the window returns `(-1, false)`, not `(window, true)` —
the scan `range(window, len(data))` is empty at equality. -/
theorem detect_steady_state_len_eq_window_cex :
    detectSteadyState [some 1, some 1] 2 (1/10) = (-1, false) := rfl

/-- Claim C2 (amended): a strictly constant NaN-free sequence of length
STRICTLY GREATER than the window (with a positive threshold) yields
`(window, true)`; in general a `(i, true)` result is the first index
`i ∈ [window, len)` whose preceding window has standard deviation strictly
below the threshold.  (At length exactly equal to the window the scan is
empty and the result is `(-1, false)`.) -/
theorem detect_steady_state_spec :
    (∀ (c : ℚ) (n w : Nat) (t : ℚ), 0 < w → w < n → 0 < t →
      detectSteadyState (List.replicate n (some c)) w t = ((w : ℤ), true)) ∧
    (∀ (data : List Samp) (w : Nat) (t : ℚ) (i : ℕ),
      detectSteadyState data w t = ((i : ℤ), true) →
      w ≤ i ∧ i < data.length ∧ stdLt ((data.drop (i - w)).take w) t ∧
      ∀ j, w ≤ j → j < i → ¬ stdLt ((data.drop (j - w)).take w) t) := by
  constructor
  · exact detectSteadyState_replicate
  · intro data w t i h
    rcases detectSteadyState_cases data w t with hc | ⟨i', hceq, h1, h2, h3, h4⟩
    · rw [h] at hc; simp at hc
    · rw [h] at hceq
      obtain rfl : i = i' := by
        have := congrArg Prod.fst hceq
        simpa using this
      exact ⟨h1, h2, h3, h4⟩

/-- Claim C2, witness for `detect_steady_state_spec`. -/
theorem detect_steady_state_spec_witness :
    detectSteadyState (List.replicate 3 (some 1)) 2 (1/10) = ((2 : ℤ), true) :=
  detect_steady_state_spec.1 1 3 2 (1/10) (by norm_num) (by norm_num) (by norm_num)

/-! ## Claim C10 -/

/-- Claim C10: whenever steady-state detection reports `is_steady = true`,
the returned index lies in `[window, len(data))`; hence for an index-aligned
timestamp sequence the orchestrator's `timestamps[steady_idx]` read is in
bounds.  (The orchestrator calls this with `window = 50` on filtered data
longer than 50; the bound is proved for every window.) -/
theorem detect_steady_state_index_in_bounds (data : List Samp) (w : Nat) (t : ℚ)
    (i : ℕ) (ts : List ℚ) (hts : ts.length = data.length)
    (h : detectSteadyState data w t = ((i : ℤ), true)) :
    w ≤ i ∧ i < data.length ∧ ((i : ℤ)).toNat < ts.length := by
  rcases detectSteadyState_cases data w t with hc | ⟨i', hceq, h1, h2, _, _⟩
  · rw [h] at hc; simp at hc
  · rw [h] at hceq
    obtain rfl : i = i' := by simpa using congrArg Prod.fst hceq
    exact ⟨h1, h2, by simpa [hts] using h2⟩

/-- Claim C10, witness for `detect_steady_state_index_in_bounds`. -/
theorem detect_steady_state_index_in_bounds_witness :
    2 ≤ 2 ∧ 2 < (List.replicate 3 (some (1:ℚ))).length ∧
      ((2 : ℤ)).toNat < ([0, 0, 0] : List ℚ).length :=
  detect_steady_state_index_in_bounds (List.replicate 3 (some 1)) 2 (1/10) 2
    [0, 0, 0] rfl
    (detectSteadyState_replicate 1 3 2 (1/10) (by norm_num) (by norm_num) (by norm_num))

theorem zipWith_eq_range_map {α β γ : Type} (f : α → β → γ) (as : List α) (bs : List β)
    (n : Nat) (ha : as.length = n) (hb : bs.length = n) (da : α) (db : β) :
    List.zipWith f as bs = (List.range n).map (fun i => f (as.getD i da) (bs.getD i db)) := by
  apply List.ext_getElem?
  intro i
  rw [List.getElem?_zipWith, List.getElem?_map]
  by_cases hi : i < n
  · rw [List.getElem?_eq_getElem (show i < as.length by omega),
      List.getElem?_eq_getElem (show i < bs.length by omega),
      List.getElem?_range hi]
    simp [List.getD_eq_getElem?_getD,
      List.getElem?_eq_getElem (show i < as.length by omega),
      List.getElem?_eq_getElem (show i < bs.length by omega)]
  · rw [List.getElem?_eq_none (show as.length ≤ i by omega),
      List.getElem?_eq_none (show bs.length ≤ i by omega),
      List.getElem?_eq_none (by simpa using Nat.not_lt.mp hi)]
    rfl

/-! ## Claim C6 -/

/-- Claim C6: with an index-aligned timestamp sequence, the derivative is
the length-`n-1` sequence whose entry `i` is
`(data[i+1] - data[i]) / (ts[i+1] - ts[i])` with a zero time delta mapped
to NaN instead of raising; for `n < 2` the result is the empty sequence; no
input raises. -/
theorem calculate_derivative_spec (data : List Samp) (ts : List ℚ)
    (hts : ts.length = data.length) :
    calculateDerivative data ts = .ok ((List.range (data.length - 1)).map (fun i =>
      fdiv (fsub (data.getD (i + 1) none) (data.getD i none))
        (if ts.getD (i + 1) 0 - ts.getD i 0 = 0 then none
         else some (ts.getD (i + 1) 0 - ts.getD i 0)))) := by
  by_cases hn : data.length < 2
  · have h0 : data.length - 1 = 0 := by omega
    rw [calculateDerivative, if_pos hn, h0]
    simp
  · rw [calculateDerivative, if_neg hn]
    have hd : (diffS data).length = data.length - 1 := by
      simp [diffS]
    have hw : (whereNZ (diffQ ts)).length = data.length - 1 := by
      simp [whereNZ, diffQ, hts]
    rw [broadcastDiv, if_pos (by omega)]
    congr 1
    rw [zipWith_eq_range_map fdiv _ _ (data.length - 1) hd hw none none]
    apply List.map_congr_left
    intro i hi
    have hi' : i < data.length - 1 := List.mem_range.mp hi
    have hb1 : i + 1 < data.length := by omega
    have hb2 : i < data.length := by omega
    have ht1 : i + 1 < ts.length := by omega
    have ht2 : i < ts.length := by omega
    congr 1
    · simp [diffS, List.getD_eq_getElem?_getD, List.getElem?_zipWith, List.getElem?_tail,
        List.getElem?_eq_getElem hb1, List.getElem?_eq_getElem hb2, fsub]
    · simp [whereNZ, diffQ, List.getD_eq_getElem?_getD, List.getElem?_map,
        List.getElem?_zipWith, List.getElem?_tail,
        List.getElem?_eq_getElem ht1, List.getElem?_eq_getElem ht2]

/-- Claim C6, witness for `calculate_derivative_spec`: a duplicated
timestamp yields NaN, not an exception. -/
theorem calculate_derivative_spec_witness :
    calculateDerivative [some 1, some 3] [0, 0] = .ok [none] := by
  have h := calculate_derivative_spec [some 1, some 3] [0, 0] rfl
  simpa [List.range_succ, fsub, fdiv] using h

theorem scatterValid_length (l : List Samp) : ∀ vs, (scatterValid l vs).length = l.length := by
  induction l with
  | nil => intro vs; rfl
  | cons x rest ih =>
    intro vs
    cases x with
    | none => simpa [scatterValid] using ih vs
    | some v =>
      cases vs with
      | nil => simpa [scatterValid] using ih []
      | cons w ws => simpa [scatterValid] using ih ws

theorem removeOutliers_fst_length (t : ℚ) (data : List Samp) (method : String) :
    (removeOutliers t data method).1.length = data.length := by
  rw [removeOutliers]
  by_cases hz : method = "zscore" <;> by_cases hi : method = "iqr" <;>
    simp [hz, hi, applyMask, List.length_zipWith]

theorem movingAverageFilter_length (data : List Samp) (w : Nat) :
    (movingAverageFilter data w).length = data.length := by
  rw [movingAverageFilter]
  by_cases h0 : validCount data = 0
  · simp [h0]
  · by_cases hw : w ≤ (validList data).length <;>
      simp [h0, hw, scatterValid_length]

theorem applyFilter_length (cfg : ProcConfig) (data : List Samp) :
    (applyFilter cfg data).length = data.length := by
  rw [applyFilter]
  by_cases he : cfg.filterEnabled = false
  · simp [he]
  · by_cases hm : cfg.filterType = "moving_average" <;>
      simp [he, hm, movingAverageFilter_length]

theorem calculateDerivative_ok (data : List Samp) (ts : List ℚ)
    (hts : ts.length = data.length) :
    ∃ l, calculateDerivative data ts = .ok l := by
  by_cases hn : data.length < 2
  · exact ⟨[], by rw [calculateDerivative, if_pos hn]⟩
  · refine ⟨List.zipWith fdiv (diffS data) (whereNZ (diffQ ts)), ?_⟩
    rw [calculateDerivative, if_neg hn, broadcastDiv,
      if_pos (by simp [diffS, whereNZ, diffQ, hts])]

/-- An `Except` computation that did not raise. -/
def ExceptOk {ε α : Type} : Except ε α → Prop
  | .ok _ => True
  | .error _ => False

theorem ExceptOk.bindOk {ε α β : Type} {x : Except ε α} {f : α → Except ε β}
    (hx : ExceptOk x) (hf : ∀ a, ExceptOk (f a)) : ExceptOk (x >>= f) := by
  cases x with
  | ok a => exact hf a
  | error e => exact absurd hx (by simp [ExceptOk])

theorem steadyStage_ok (filtered : List Samp) (ts : List ℚ)
    (hts : ts.length = filtered.length) : ExceptOk (steadyStage filtered (some ts)) := by
  simp only [steadyStage]
  by_cases h50 : 50 < filtered.length
  · rw [if_pos h50]
    rcases detectSteadyState_cases filtered 50 (1/10) with hc | ⟨i, hceq, _, h2, _, _⟩
    · rw [hc]
      rw [if_neg (by norm_num)]
      trivial
    · rw [hceq]
      have hlt : ((i : ℤ), true).1.toNat < ts.length := by
        simp [hts]
        omega
      rw [if_pos (by simp), dif_pos hlt]
      trivial
  · rw [if_neg h50]
    trivial

theorem derivStage_ok (filtered : List Samp) (ts : List ℚ)
    (hts : ts.length = filtered.length) : ExceptOk (derivStage filtered (some ts)) := by
  simp only [derivStage]
  by_cases h1 : 1 < filtered.length
  · rw [if_pos h1]
    obtain ⟨l, hl⟩ := calculateDerivative_ok filtered ts hts
    exact ExceptOk.bindOk (by rw [hl]; trivial) (fun d => trivial)
  · rw [if_neg h1]
    trivial

/-! ## Claim C3 -/

/-- Claim C3, counterexample: a call with mismatched lengths (1 sample, 5
timestamps) does not fail with any shape condition — the orchestrator has no
length validation and simply computes a result (here the timestamp-dependent
stages are skipped by the length guards). -/
theorem process_channel_data_mismatch_cex :
    ExceptOk (processChannelData defaultConfig [some 1] (some [0, 1, 2, 3, 4])) := by
  have hlen : (applyFilter defaultConfig
      (removeOutliers defaultConfig.outlierThreshold [some 1] "zscore").1).length = 1 := by
    rw [applyFilter_length, removeOutliers_fst_length]
    rfl
  simp only [processChannelData]
  apply ExceptOk.bindOk
  · simp only [steadyStage]
    rw [if_neg (by rw [hlen]; norm_num)]
    trivial
  · intro steady
    apply ExceptOk.bindOk
    · simp only [derivStage]
      rw [if_neg (by rw [hlen]; norm_num)]
      trivial
    · intro dm
      trivial

/-- Claim C3 (amended): the orchestrator never raises on any input whose
timestamp sequence is index-aligned with the samples — in particular for
every numeric-degenerate input (all-NaN, zero variance, too short).  It
performs no length validation, so a mismatched-length call is NOT rejected
with a `ShapeMismatch` condition: depending on the lengths it either
computes a result normally (see `process_channel_data_mismatch_cex`) or
surfaces a generic `IndexError`/broadcast error. -/
theorem process_channel_data_no_raise (data : List Samp) (ts : List ℚ)
    (hts : ts.length = data.length) :
    ExceptOk (processChannelData defaultConfig data (some ts)) := by
  have hlen : (applyFilter defaultConfig
      (removeOutliers defaultConfig.outlierThreshold data "zscore").1).length =
      data.length := by
    rw [applyFilter_length, removeOutliers_fst_length]
  simp only [processChannelData]
  apply ExceptOk.bindOk
  · exact steadyStage_ok _ _ (by rw [hlen, hts])
  · intro steady
    apply ExceptOk.bindOk
    · exact derivStage_ok _ _ (by rw [hlen, hts])
    · intro dm
      trivial

/-- Claim C3, witness for `process_channel_data_no_raise`: an aligned
all-NaN input (zero valid samples, undefined statistics) is processed
without an exception. -/
theorem process_channel_data_no_raise_witness :
    ExceptOk (processChannelData defaultConfig [none, none] (some [0, 0])) :=
  process_channel_data_no_raise [none, none] [0, 0] rfl

theorem crossLoop_eq (chs : List (String × List Samp)) :
    crossLoop chs =
      ((orderedPairs chs).filterMap (fun p =>
        if 10 < jointCount p.1.2 p.2.2 then
          some (vsKey p.1.1 p.2.1, pearson (jointPairs p.1.2 p.2.2)) else none),
       (orderedPairs chs).filterMap (fun p =>
        if 10 < jointCount p.1.2 p.2.2 then
          some (vsKey p.1.1 p.2.1,
            meanQ ((jointPairs p.1.2 p.2.2).map Prod.fst) -
            meanQ ((jointPairs p.1.2 p.2.2).map Prod.snd)) else none),
       (orderedPairs chs).filterMap (fun p =>
        if 10 < jointCount p.1.2 p.2.2 then
          some (vsKey p.1.1 p.2.1,
            stdR ((jointPairs p.1.2 p.2.2).map Prod.fst) -
            stdR ((jointPairs p.1.2 p.2.2).map Prod.snd)) else none)) := by
  induction chs with
  | nil => rfl
  | cons hd rest ih =>
    obtain ⟨n1, d1⟩ := hd
    simp only [crossLoop, orderedPairs, List.filterMap_append, List.filterMap_map, ih,
      Function.comp]
    rfl

/-! ## Claim C9 -/

/-- Claim C9: in `compare_channels` a correlation, mean-difference and
std-difference entry is emitted for an ordered pair of channels (input
enumeration order) exactly when its jointly valid sample count is strictly
greater than 10; pairs at or below the threshold contribute nothing (and no
error), and each emitted difference is first-named minus second-named. -/
theorem compare_channels_pair_entries (chs : List (String × List Samp)) :
    (compareChannels chs).crossCorrelation = (orderedPairs chs).filterMap (fun p =>
        if 10 < jointCount p.1.2 p.2.2 then
          some (vsKey p.1.1 p.2.1, pearson (jointPairs p.1.2 p.2.2)) else none) ∧
    (compareChannels chs).meanDifference = (orderedPairs chs).filterMap (fun p =>
        if 10 < jointCount p.1.2 p.2.2 then
          some (vsKey p.1.1 p.2.1,
            meanQ ((jointPairs p.1.2 p.2.2).map Prod.fst) -
            meanQ ((jointPairs p.1.2 p.2.2).map Prod.snd)) else none) ∧
    (compareChannels chs).stdDifference = (orderedPairs chs).filterMap (fun p =>
        if 10 < jointCount p.1.2 p.2.2 then
          some (vsKey p.1.1 p.2.1,
            stdR ((jointPairs p.1.2 p.2.2).map Prod.fst) -
            stdR ((jointPairs p.1.2 p.2.2).map Prod.snd)) else none) := by
  refine ⟨?_, ?_, ?_⟩ <;> simp [compareChannels, crossLoop_eq]

/-! ## Claim C7 -/

/-- Claim C7 is a code bug: `calculate_beta_from_points(25, 10000, 50, 3600)`
returns `ln(3600/10000) / (1/298.15 - 1/323.15)` (a NEGATIVE beta, about
-3937.6 K; the sign of the denominator is flipped relative to the standard
formula), and while the Beta equation still returns exactly 25 °C at the
reference point 10000 Ω, at 3600 Ω it returns about 3.59 °C instead of the
claimed 50 °C — off by more than 46 °C, far beyond the 0.01 °C tolerance. -/
theorem calculate_beta_round_trip_fails :
    betaEquation 10000 10000 25 (calculateBetaFromPoints 25 10000 50 3600) = 25 ∧
    |betaEquation 3600 10000 25 (calculateBetaFromPoints 25 10000 50 3600) - 50|
      > 0.01 := by
  have hL : Real.log ((3600 : ℝ) / 10000) ≠ 0 := by
    have h00 : (0 : ℝ) < 3600 / 10000 := by norm_num
    have h01 : (3600 : ℝ) / 10000 < 1 := by norm_num
    exact ne_of_lt (Real.log_neg h00 h01)
  constructor
  · simp only [betaEquation, calculateBetaFromPoints]
    rw [show max (10000 : ℝ) 0.001 = 10000 by norm_num]
    rw [show (10000 : ℝ) / 10000 = 1 by norm_num]
    rw [show max (1 : ℝ) 0.001 = 1 by norm_num]
    rw [Real.log_one]
    norm_num
  · simp only [betaEquation, calculateBetaFromPoints]
    rw [show max (3600 : ℝ) 0.001 = 3600 by norm_num]
    rw [show max ((3600 : ℝ) / 10000) 0.001 = 3600 / 10000 by norm_num]
    rw [one_div_div, div_mul_cancel₀ _ hL]
    rw [abs_of_neg (by norm_num)]
    norm_num

open scoped Matrix

/-- A solution of the normal equations minimises the squared residual of
the overdetermined system — the defining property of `np.linalg.lstsq`. -/
theorem lstsq_normal_minimizes {n : Nat} (X : Matrix (Fin n) (Fin 3) ℝ) (y : Fin n → ℝ)
    (c : Fin 3 → ℝ) (hc : (Xᵀ * X) *ᵥ c = Xᵀ *ᵥ y) (u : Fin 3 → ℝ) :
    ∑ i, ((X *ᵥ c) i - y i) ^ 2 ≤ ∑ i, ((X *ᵥ u) i - y i) ^ 2 := by
  have h0 : Xᵀ *ᵥ (X *ᵥ c - y) = 0 := by
    rw [Matrix.mulVec_sub, Matrix.mulVec_mulVec, hc, sub_self]
  have horth : ∑ i, (X *ᵥ (u - c)) i * (X *ᵥ c - y) i = 0 := by
    have h1 : ∑ i, (X *ᵥ (u - c)) i * (X *ᵥ c - y) i =
        (X *ᵥ (u - c)) ⬝ᵥ (X *ᵥ c - y) := rfl
    rw [h1, Matrix.dotProduct_comm, Matrix.dotProduct_mulVec,
      ← Matrix.mulVec_transpose, h0, Matrix.zero_dotProduct]
  have expand : ∀ i, (X *ᵥ u) i - y i = (X *ᵥ (u - c)) i + (X *ᵥ c - y) i := by
    intro i
    rw [Matrix.mulVec_sub]
    simp
  have hsum : ∑ i, ((X *ᵥ u) i - y i) ^ 2 =
      ∑ i, ((X *ᵥ (u - c)) i) ^ 2 +
        2 * ∑ i, ((X *ᵥ (u - c)) i * (X *ᵥ c - y) i) +
        ∑ i, ((X *ᵥ c - y) i) ^ 2 := by
    rw [Finset.mul_sum, ← Finset.sum_add_distrib, ← Finset.sum_add_distrib]
    exact Finset.sum_congr rfl fun i _ => by rw [expand i]; ring
  have final : ∑ i, ((X *ᵥ c) i - y i) ^ 2 = ∑ i, ((X *ᵥ c - y) i) ^ 2 := by simp
  rw [final, hsum, horth, mul_zero, add_zero]
  exact le_add_of_nonneg_left (Finset.sum_nonneg fun i _ => sq_nonneg _)

/-! ## Claim C8 -/

/-- Claim C8: `calculate_steinhart_hart_coefficients` fails fast exactly
when given fewer than 3 points or unequal-length inputs; otherwise it
returns coefficients `(a, b, c)` that minimise the squared residual of the
overdetermined system `[1, ln R, ln R³] · (a,b,c) = 1/T` built from the
kelvin-converted temperatures (full-column-rank case, where the normal
equations characterise `np.linalg.lstsq`). -/
theorem steinhart_hart_fit_spec :
    (∀ ts rs : List ℝ, (∃ e, calculateSteinhartHartCoefficients ts rs = .error e) ↔
      (ts.length < 3 ∨ ts.length ≠ rs.length)) ∧
    (∀ ts rs : List ℝ, 3 ≤ ts.length → ts.length = rs.length →
      IsUnit ((shDesign rs ts.length)ᵀ * shDesign rs ts.length).det →
      ∃ a b c, calculateSteinhartHartCoefficients ts rs = .ok (a, b, c) ∧
        ∀ u : Fin 3 → ℝ,
          shResidual rs ts.length (shTarget ts ts.length) ![a, b, c] ≤
          shResidual rs ts.length (shTarget ts ts.length) u) := by
  constructor
  · intro ts rs
    by_cases h3 : ts.length < 3
    · simp [calculateSteinhartHartCoefficients, h3]
    · by_cases hm : ts.length ≠ rs.length
      · simp [calculateSteinhartHartCoefficients, h3, hm]
      · simp [calculateSteinhartHartCoefficients, h3, hm]
  · intro ts rs h3 hm hdet
    refine ⟨lstsqNormal rs ts.length (shTarget ts ts.length) 0,
      lstsqNormal rs ts.length (shTarget ts ts.length) 1,
      lstsqNormal rs ts.length (shTarget ts ts.length) 2, ?_, ?_⟩
    · rw [calculateSteinhartHartCoefficients, if_neg (by omega), if_neg (by omega)]
    · intro u
      have hvec : ![lstsqNormal rs ts.length (shTarget ts ts.length) 0,
          lstsqNormal rs ts.length (shTarget ts ts.length) 1,
          lstsqNormal rs ts.length (shTarget ts ts.length) 2] =
          lstsqNormal rs ts.length (shTarget ts ts.length) := by
        funext j
        fin_cases j <;> rfl
      rw [hvec]
      have hc : ((shDesign rs ts.length)ᵀ * shDesign rs ts.length) *ᵥ
          lstsqNormal rs ts.length (shTarget ts ts.length) =
          (shDesign rs ts.length)ᵀ *ᵥ shTarget ts ts.length := by
        rw [lstsqNormal, Matrix.mulVec_mulVec, Matrix.mul_nonsing_inv _ hdet,
          Matrix.one_mulVec]
      exact lstsq_normal_minimizes _ _ _ hc u

/-- Claim C8, witness for `steinhart_hart_fit_spec`: three calibration
points whose resistances have logarithms 0, 1, 2, giving a full-rank design
matrix (the Gram determinant evaluates to 36). -/
theorem steinhart_hart_fit_spec_witness :
    3 ≤ ([0, 25, 50] : List ℝ).length ∧
    ∃ a b c, calculateSteinhartHartCoefficients [0, 25, 50]
        [1, Real.exp 1, Real.exp 2] = .ok (a, b, c) ∧
      ∀ u : Fin 3 → ℝ,
        shResidual [1, Real.exp 1, Real.exp 2] ([0, 25, 50] : List ℝ).length
          (shTarget [0, 25, 50] ([0, 25, 50] : List ℝ).length) ![a, b, c] ≤
        shResidual [1, Real.exp 1, Real.exp 2] ([0, 25, 50] : List ℝ).length
          (shTarget [0, 25, 50] ([0, 25, 50] : List ℝ).length) u := by
  refine ⟨by norm_num, ?_⟩
  apply steinhart_hart_fit_spec.2 [0, 25, 50] [1, Real.exp 1, Real.exp 2]
    (by norm_num) rfl
  have hdet : (((shDesign [1, Real.exp 1, Real.exp 2]
      ([0, 25, 50] : List ℝ).length)ᵀ *
      shDesign [1, Real.exp 1, Real.exp 2] ([0, 25, 50] : List ℝ).length).det) = 36 := by
    simp [Matrix.det_fin_three, Matrix.mul_apply, Fin.sum_univ_three,
      Matrix.transpose_apply, shDesign, List.getD, Real.log_one, Real.log_exp]
    norm_num
  rw [hdet]
  exact isUnit_iff_ne_zero.mpr (by norm_num)
